import Mathlib

/-!
# Verification of the slot-machine session/credit core

Shallow embedding of the repository `The-House-Always-Wins` (files
`game/models.py` and `game/views.py`).  The process-global random source
(`random.choice`, `random.random`) is made explicit: symbol choices read
from a stream `d : ℕ → ℕ` of indices (reduced modulo the list length, so
every stream denotes a run and every run is denoted), and the fairness
engine reads from a stream `r : ℕ → ℚ` of uniform draws in `[0,1)`.
Functions that consume draws report how many they consumed.
-/

namespace Game

/-- The fixed symbol catalog keys (`SYMBOLS` in `game/views.py`). -/
inductive Symbol where
  | cherry
  | lemon
  | orange
  | watermelon
deriving DecidableEq, Repr

/-- The letter field of a catalog entry in `SYMBOLS` (`game/views.py`). -/
def Symbol.letter : Symbol → String
  | .cherry => "C"
  | .lemon => "L"
  | .orange => "O"
  | .watermelon => "W"

/-- The reward field of a catalog entry in `SYMBOLS` (`game/views.py`). -/
def Symbol.reward : Symbol → ℤ
  | .cherry => 10
  | .lemon => 20
  | .orange => 30
  | .watermelon => 40

/-- The list `SYMBOL_NAMES` of catalog keys (`game/views.py`). -/
def SYMBOL_NAMES : List Symbol :=
  [.cherry, .lemon, .orange, .watermelon]

/-- Embedding of `random.choice(l)`: a uniform index draw `n` selects the
entry at `n % len(l)`.
The default is never used on the nonempty lists this program passes. -/
def choice (l : List Symbol) (n : ℕ) : Symbol :=
  l.getD (n % l.length) .cherry

/-- Embedding of `generate_roll` (`game/views.py`): three successive uniform symbol
draws, reading indices `d 0`, `d 1`, `d 2`. -/
def generate_roll (d : ℕ → ℕ) : List Symbol :=
  [choice SYMBOL_NAMES (d 0), choice SYMBOL_NAMES (d 1), choice SYMBOL_NAMES (d 2)]

/-- Embedding of `generate_losing_roll` (`game/views.py`): draw three
symbols; if all three are equal (`len(set(symbols)) == 1`), redraw the
third slot from the symbols other than the value in the first slot (index
draw `d 3`). -/
def generate_losing_roll (d : ℕ → ℕ) : List Symbol :=
  let s0 := choice SYMBOL_NAMES (d 0)
  let s1 := choice SYMBOL_NAMES (d 1)
  let s2 := choice SYMBOL_NAMES (d 2)
  if ([s0, s1, s2] : List Symbol).dedup.length = 1 then
    [s0, s1, choice (SYMBOL_NAMES.filter (fun s => s ≠ s0)) (d 3)]
  else
    [s0, s1, s2]

/-- Embedding of `check_winning_combination` (`game/views.py`):
`len(set(symbols)) == 1`. -/
def check_winning_combination (symbols : List Symbol) : Bool :=
  symbols.dedup.length == 1

/-- Embedding of `should_server_cheat` (`game/views.py`).  The second component is
the number of uniform draws consumed from the stream `r` (the Python code
calls `random.random()` once in each probabilistic branch and not at all in
the first branch). -/
def should_server_cheat (current_credits potential_win_credits : ℤ)
    (r : ℕ → ℚ) : Bool × ℕ :=
  let future_credits := current_credits + potential_win_credits
  if future_credits < 40 then
    (false, 0)
  else if 40 ≤ future_credits ∧ future_credits ≤ 60 then
    (decide (r 0 < 3/10), 1)
  else
    (decide (r 0 < 6/10), 1)

/-- The ledger fields of `GameSession` (`game/models.py`); the opaque
identifier is the index of the session in the store, the timestamp is out
of scope. -/
structure GameSession where
  credits : ℤ
  account_credits : ℤ
  is_active : Bool
deriving DecidableEq, Repr

/-- Embedding of `GameSession.can_play`: `credits >= 1`. -/
def GameSession.can_play (s : GameSession) : Bool :=
  s.credits ≥ 1

/-- Embedding of `GameSession.deduct_credit`: if `can_play`, decrement `credits` and
return success, else no mutation and failure. -/
def GameSession.deduct_credit (s : GameSession) : GameSession × Bool :=
  if s.can_play then ({ s with credits := s.credits - 1 }, true)
  else (s, false)

/-- Embedding of `GameSession.add_credits`. -/
def GameSession.add_credits (s : GameSession) (amount : ℤ) : GameSession :=
  { s with credits := s.credits + amount }

/-- Embedding of `GameSession.cash_out`: move `credits` into `account_credits`, zero
`credits`, deactivate, return the new `account_credits`. -/
def GameSession.cash_out (s : GameSession) : GameSession × ℤ :=
  let s' : GameSession :=
    { credits := 0
      account_credits := s.account_credits + s.credits
      is_active := false }
  (s', s'.account_credits)

/-- The audit-record fields of `GameRoll` (`game/models.py`; timestamp out of
scope). -/
structure GameRoll where
  session_id : ℕ
  symbols : List Symbol
  credits_before : ℤ
  credits_after : ℤ
  credits_won : ℤ
  was_winning_roll : Bool
  was_rerolled : Bool
deriving DecidableEq, Repr

/-- The persistent database: sessions indexed by creation order, plus the
audit log of rolls. -/
structure Store where
  sessions : List GameSession
  rolls : List GameRoll
deriving DecidableEq, Repr

/-- The empty database. -/
def emptyStore : Store := ⟨[], []⟩

/-- The domain-error taxonomy of the request handlers. -/
inductive Err where
  | sessionNotFoundOrInactive
  | insufficientCredits
  | sessionNotFound
deriving DecidableEq, Repr

/-- The lookup `get_object_or_404(GameSession, session_id=..., is_active=True)` used
by `roll_slots` and `cash_out` in `game/views.py`. -/
def lookupActive (st : Store) (sid : ℕ) : Option GameSession :=
  match st.sessions[sid]? with
  | some s => if s.is_active then some s else none
  | none => none

/-- The JSON payload of a successful `roll_slots` response. -/
structure RollResponse where
  symbols : List Symbol
  symbols_display : List String
  is_winning : Bool
  credits_won : ℤ
  total_credits : ℤ
  was_rerolled : Bool
deriving DecidableEq, Repr

/-- The final step of `roll_slots`: persist the mutated session, create the
`GameRoll` record, and build the response. -/
def finishRoll (st : Store) (sid : ℕ) (session : GameSession)
    (credits_before : ℤ) (symbols : List Symbol) (credits_won : ℤ)
    (is_winning was_rerolled : Bool) : Except Err (Store × RollResponse) :=
  let roll : GameRoll :=
    { session_id := sid
      symbols := symbols
      credits_before := credits_before
      credits_after := session.credits
      credits_won := credits_won
      was_winning_roll := is_winning
      was_rerolled := was_rerolled }
  .ok (⟨st.sessions.set sid session, st.rolls ++ [roll]⟩,
    { symbols := symbols
      symbols_display := symbols.map Symbol.letter
      is_winning := is_winning
      credits_won := credits_won
      total_credits := session.credits
      was_rerolled := was_rerolled })

/-- Embedding of `roll_slots` (`game/views.py`).  `d` feeds `random.choice` (three
draws for the initial roll, then fresh draws for a possible losing
re-roll), `r` feeds `random.random` inside `should_server_cheat`. -/
def roll_slots (st : Store) (sid : ℕ) (d : ℕ → ℕ) (r : ℕ → ℚ) :
    Except Err (Store × RollResponse) :=
  match lookupActive st sid with
  | none => .error .sessionNotFoundOrInactive
  | some session =>
    if session.can_play then
      let credits_before := session.credits
      let session1 := session.deduct_credit.1
      let symbols := generate_roll d
      if check_winning_combination symbols then
        let credits_won := (symbols.getD 0 .cherry).reward
        if (should_server_cheat session1.credits credits_won r).1 then
          finishRoll st sid session1 credits_before
            (generate_losing_roll (fun n => d (n + 3))) 0 false true
        else
          finishRoll st sid (session1.add_credits credits_won)
            credits_before symbols credits_won true false
      else
        finishRoll st sid session1 credits_before symbols 0 false false
    else
      .error .insufficientCredits

/-- Embedding of the `cash_out` view (`game/views.py`): look up an active session, cash
it out, return the new account total. -/
def cash_out_view (st : Store) (sid : ℕ) : Except Err (Store × ℤ) :=
  match lookupActive st sid with
  | none => .error .sessionNotFoundOrInactive
  | some session =>
    let res := session.cash_out
    .ok (⟨st.sessions.set sid res.1, st.rolls⟩, res.2)

/-- Embedding of the `create_session` view (`game/views.py`): a fresh session with
`credits = 10`, `account_credits = 0`, active; its identifier is the next
index. -/
def create_session_view (st : Store) : Store × ℕ :=
  (⟨st.sessions ++ [{ credits := 10, account_credits := 0, is_active := true }],
    st.rolls⟩,
   st.sessions.length)

/-- The JSON payload of `get_session_status`. -/
structure StatusResponse where
  credits : ℤ
  account_credits : ℤ
  is_active : Bool
  can_play : Bool
deriving DecidableEq, Repr

/-- Embedding of the `get_session_status` view (`game/views.py`; any session, active or
not; unknown identifiers get 404). -/
def get_session_status (st : Store) (sid : ℕ) : Except Err StatusResponse :=
  match st.sessions[sid]? with
  | none => .error .sessionNotFound
  | some s =>
    .ok { credits := s.credits
          account_credits := s.account_credits
          is_active := s.is_active
          can_play := s.can_play }

/-- One public operation of the interface, with the random draws a play
consumes. -/
inductive Op where
  | create
  | play (sid : ℕ) (d : ℕ → ℕ) (r : ℕ → ℚ)
  | cashout (sid : ℕ)
  | status (sid : ℕ)

/-- State transition of one operation; a failed request leaves the store
unchanged. -/
def applyOp (st : Store) : Op → Store
  | .create => (create_session_view st).1
  | .play sid d r =>
    match roll_slots st sid d r with
    | .ok p => p.1
    | .error _ => st
  | .cashout sid =>
    match cash_out_view st sid with
    | .ok p => p.1
    | .error _ => st
  | .status _ => st

/-- Run a sequence of operations. -/
def runOps (st : Store) : List Op → Store
  | [] => st
  | op :: ops => runOps (applyOp st op) ops

/-- A store in which every inactive session has zero credits. -/
abbrev ClosedZero (st : Store) : Prop :=
  ∀ (sid : ℕ) (s : GameSession),
    st.sessions[sid]? = some s → s.is_active = false → s.credits = 0

/-- A store in which every session has nonnegative credits and account
credits. -/
abbrev NonNeg (st : Store) : Prop :=
  ∀ (sid : ℕ) (s : GameSession), st.sessions[sid]? = some s →
    0 ≤ s.credits ∧ 0 ≤ s.account_credits

/-! ## Helper lemmas -/

lemma can_play_iff (s : GameSession) : s.can_play = true ↔ 1 ≤ s.credits := by
  simp [GameSession.can_play]

lemma lookupActive_eq_some_iff (st : Store) (sid : ℕ) (s : GameSession) :
    lookupActive st sid = some s ↔
      st.sessions[sid]? = some s ∧ s.is_active = true := by
  unfold lookupActive
  cases h : st.sessions[sid]? with
  | none => simp
  | some s' =>
    by_cases ha : s'.is_active = true
    · simp only [ha, if_true, Option.some.injEq]
      constructor
      · rintro rfl; exact ⟨rfl, ha⟩
      · rintro ⟨rfl, _⟩; rfl
    · simp only [Bool.not_eq_true] at ha
      simp [ha]
      rintro rfl
      simp [ha]

lemma getElem?_some_lt {α : Type _} {l : List α} {i : ℕ} {a : α}
    (h : l[i]? = some a) : i < l.length := by
  rcases List.getElem?_eq_some.mp h with ⟨h', _⟩
  exact h'

lemma choice_mem (l : List Symbol) (hl : l ≠ []) (n : ℕ) : choice l n ∈ l := by
  unfold choice
  have h0 : 0 < l.length := List.length_pos.mpr hl
  have hlt : n % l.length < l.length := Nat.mod_lt _ h0
  rw [List.getD_eq_getElem?_getD, List.getElem?_eq_getElem hlt]
  exact List.getElem_mem hlt

lemma filter_ne_nonempty (x : Symbol) :
    SYMBOL_NAMES.filter (fun s => s ≠ x) ≠ [] := by
  cases x <;> decide

lemma check_winning_three (a b c : Symbol) :
    check_winning_combination [a, b, c] = true ↔ a = b ∧ a = c := by
  cases a <;> cases b <;> cases c <;> decide

lemma reward_nonneg (x : Symbol) : 0 ≤ x.reward := by
  cases x <;> decide

/-! ## Claims -/

/-- C1: for non-negative credits, with futureCredits the sum, the fairness
engine returns false consuming no draw when futureCredits is below 40,
consumes one draw r and suppresses iff r is below 0.3 when futureCredits is
between 40 and 60, and consumes one draw r and suppresses iff r is below
0.6 when futureCredits exceeds 60. -/
theorem should_server_cheat_spec (cur pot : ℤ) (_hc : 0 ≤ cur)
    (_hp : 0 ≤ pot) (r : ℕ → ℚ) :
    (cur + pot < 40 → should_server_cheat cur pot r = (false, 0)) ∧
    (40 ≤ cur + pot → cur + pot ≤ 60 →
      ((should_server_cheat cur pot r).1 = true ↔ r 0 < 3/10) ∧
      (should_server_cheat cur pot r).2 = 1) ∧
    (60 < cur + pot →
      ((should_server_cheat cur pot r).1 = true ↔ r 0 < 6/10) ∧
      (should_server_cheat cur pot r).2 = 1) := by
  refine ⟨?_, ?_, ?_⟩
  · intro h
    simp [should_server_cheat, h]
  · intro h1 h2
    have hn : ¬ (cur + pot < 40) := by omega
    simp [should_server_cheat, hn, h1, h2]
  · intro h
    have hn : ¬ (cur + pot < 40) := by omega
    have hn2 : ¬ (40 ≤ cur + pot ∧ cur + pot ≤ 60) := by omega
    simp [should_server_cheat, hn, hn2]

/-- Witness for C1: futureCredits 45, draw 1/5: one draw consumed,
suppression true. -/
theorem should_server_cheat_spec_witness :
    (0:ℤ) ≤ 35 ∧ (0:ℤ) ≤ 10 ∧ (40:ℤ) ≤ 35 + 10 ∧ (35:ℤ) + 10 ≤ 60 ∧
    (((should_server_cheat 35 10 (fun _ => 1/5)).1 = true ↔
        (1:ℚ)/5 < 3/10) ∧
      (should_server_cheat 35 10 (fun _ => 1/5)).2 = 1) :=
  ⟨by norm_num, by norm_num, by norm_num, by norm_num,
    (should_server_cheat_spec 35 10 (by norm_num) (by norm_num)
      (fun _ => 1/5)).2.1 (by norm_num) (by norm_num)⟩

/-- C4: for every sequence of random draws, the guaranteed-losing roll has
length 3 and is never a winning combination. -/
theorem generate_losing_roll_never_wins (d : ℕ → ℕ) :
    (generate_losing_roll d).length = 3 ∧
    check_winning_combination (generate_losing_roll d) = false := by
  simp only [generate_losing_roll]
  split
  · refine ⟨rfl, ?_⟩
    set s0 := choice SYMBOL_NAMES (d 0) with hs0
    set s1 := choice SYMBOL_NAMES (d 1) with hs1
    set c := choice (SYMBOL_NAMES.filter (fun s => s ≠ s0)) (d 3) with hcdef
    have hmem : c ∈ SYMBOL_NAMES.filter (fun s => s ≠ s0) :=
      choice_mem _ (filter_ne_nonempty s0) _
    have hne : c ≠ s0 := by
      have := (List.mem_filter.mp hmem).2
      simpa using this
    cases hb : check_winning_combination [s0, s1, c] with
    | false => rfl
    | true =>
      exact absurd ((check_winning_three s0 s1 c).mp hb).2 (fun h => hne h.symm)
  · next h =>
    refine ⟨rfl, ?_⟩
    simpa [check_winning_combination] using h

/-- Witness for C4 at a concrete draw stream. -/
theorem generate_losing_roll_never_wins_witness :
    (generate_losing_roll (fun _ => 0)).length = 3 ∧
    check_winning_combination (generate_losing_roll (fun _ => 0)) = false :=
  generate_losing_roll_never_wins (fun _ => 0)

/-- C5: cashing out an active session with credits c and account total a
moves c into the account (new total a + c), zeroes credits, deactivates the
session, and returns a + c. -/
theorem cash_out_view_spec (st : Store) (sid : ℕ) (s : GameSession)
    (h : st.sessions[sid]? = some s) (ha : s.is_active = true) :
    cash_out_view st sid =
      .ok (⟨st.sessions.set sid
              { credits := 0
                account_credits := s.account_credits + s.credits
                is_active := false },
            st.rolls⟩,
        s.account_credits + s.credits) := by
  have hl : lookupActive st sid = some s :=
    (lookupActive_eq_some_iff st sid s).mpr ⟨h, ha⟩
  simp [cash_out_view, hl, GameSession.cash_out]

/-- Witness for C5: a session with 25 credits and no account credits. -/
theorem cash_out_view_spec_witness :
    cash_out_view ⟨[⟨25, 0, true⟩], []⟩ 0 =
      .ok (⟨([⟨25, 0, true⟩] : List GameSession).set 0
              { credits := 0
                account_credits := 0 + 25
                is_active := false },
            []⟩,
        0 + 25) :=
  cash_out_view_spec ⟨[⟨25, 0, true⟩], []⟩ 0 ⟨25, 0, true⟩ rfl rfl

/-- C10: at the ledger level, cashing out twice equals cashing out once,
and the second call returns the same account total. -/
theorem cash_out_ledger_idempotent (s : GameSession) :
    s.cash_out.1.cash_out.1 = s.cash_out.1 ∧
    s.cash_out.1.cash_out.2 = s.cash_out.2 := by
  simp [GameSession.cash_out]

/-- Witness for C10 at a concrete session. -/
theorem cash_out_ledger_idempotent_witness :
    (GameSession.mk 25 3 true).cash_out.1.cash_out.1 =
      (GameSession.mk 25 3 true).cash_out.1 ∧
    (GameSession.mk 25 3 true).cash_out.1.cash_out.2 =
      (GameSession.mk 25 3 true).cash_out.2 :=
  cash_out_ledger_idempotent ⟨25, 3, true⟩

/-! ## Unfolding and inversion of the roll and cash-out handlers -/

lemma roll_slots_eq_of_active {st : Store} {sid : ℕ} {s : GameSession}
    (d : ℕ → ℕ) (r : ℕ → ℚ)
    (hl : lookupActive st sid = some s) (hcp : s.can_play = true) :
    roll_slots st sid d r =
      if check_winning_combination (generate_roll d) then
        if (should_server_cheat (s.credits - 1)
            ((generate_roll d).getD 0 .cherry).reward r).1 then
          finishRoll st sid { s with credits := s.credits - 1 } s.credits
            (generate_losing_roll (fun n => d (n + 3))) 0 false true
        else
          finishRoll st sid
            { s with credits :=
                s.credits - 1 + ((generate_roll d).getD 0 .cherry).reward }
            s.credits (generate_roll d)
            ((generate_roll d).getD 0 .cherry).reward true false
      else
        finishRoll st sid { s with credits := s.credits - 1 } s.credits
          (generate_roll d) 0 false false := by
  have hd : s.deduct_credit = ({ s with credits := s.credits - 1 }, true) := by
    simp [GameSession.deduct_credit, hcp]
  simp [roll_slots, hl, hcp, hd, GameSession.add_credits]

lemma roll_slots_isOk {st : Store} {sid : ℕ} {s : GameSession}
    (d : ℕ → ℕ) (r : ℕ → ℚ)
    (hl : lookupActive st sid = some s) (hcp : s.can_play = true) :
    ∃ p, roll_slots st sid d r = .ok p := by
  rw [roll_slots_eq_of_active d r hl hcp]
  split
  · split
    · exact ⟨_, rfl⟩
    · exact ⟨_, rfl⟩
  · exact ⟨_, rfl⟩

lemma roll_slots_ok_inv {st : Store} {sid : ℕ} {d : ℕ → ℕ} {r : ℕ → ℚ}
    {p : Store × RollResponse}
    (hp : roll_slots st sid d r = .ok p) :
    ∃ s roll,
      lookupActive st sid = some s ∧ s.can_play = true ∧
      0 ≤ roll.credits_won ∧
      roll.credits_before = s.credits ∧
      roll.credits_after = s.credits - 1 + roll.credits_won ∧
      p.1.sessions = st.sessions.set sid
        { s with credits := s.credits - 1 + roll.credits_won } ∧
      p.1.rolls = st.rolls ++ [roll] := by
  cases hl : lookupActive st sid with
  | none => simp [roll_slots, hl] at hp
  | some s =>
    by_cases hcp : s.can_play = true
    · rw [roll_slots_eq_of_active d r hl hcp] at hp
      split at hp
      · split at hp
        · simp only [finishRoll, Except.ok.injEq] at hp
          refine ⟨s, ⟨sid, generate_losing_roll (fun n => d (n + 3)),
            s.credits, s.credits - 1, 0, false, true⟩,
            rfl, hcp, le_refl 0, rfl, by simp, ?_, ?_⟩
          · rw [← hp]
            simp
          · rw [← hp]
        · simp only [finishRoll, Except.ok.injEq] at hp
          refine ⟨s, ⟨sid, generate_roll d, s.credits,
            s.credits - 1 + ((generate_roll d).getD 0 .cherry).reward,
            ((generate_roll d).getD 0 .cherry).reward, true, false⟩,
            rfl, hcp, reward_nonneg _, rfl, rfl, ?_, ?_⟩
          · rw [← hp]
          · rw [← hp]
      · simp only [finishRoll, Except.ok.injEq] at hp
        refine ⟨s, ⟨sid, generate_roll d, s.credits, s.credits - 1, 0,
          false, false⟩, rfl, hcp, le_refl 0, rfl, by simp, ?_, ?_⟩
        · rw [← hp]
          simp
        · rw [← hp]
    · simp [roll_slots, hl, hcp] at hp

lemma cash_out_view_ok_inv {st : Store} {sid : ℕ} {p : Store × ℤ}
    (hp : cash_out_view st sid = .ok p) :
    ∃ s, lookupActive st sid = some s ∧
      p.1.sessions = st.sessions.set sid
        { credits := 0
          account_credits := s.account_credits + s.credits
          is_active := false } ∧
      p.1.rolls = st.rolls ∧
      p.2 = s.account_credits + s.credits := by
  cases hl : lookupActive st sid with
  | none => simp [cash_out_view, hl] at hp
  | some s =>
    simp only [cash_out_view, hl, GameSession.cash_out, Except.ok.injEq] at hp
    exact ⟨s, rfl, by rw [← hp], by rw [← hp], by rw [← hp]⟩

/-- C2: a successful roll on an active session with at least one credit
persists exactly one new roll record, with
creditsAfter = creditsBefore - 1 + creditsWon, creditsWon nonnegative, and
the credits of the session updated by exactly the same ledger equation. -/
theorem roll_slots_conservation (st : Store) (sid : ℕ) (s : GameSession)
    (d : ℕ → ℕ) (r : ℕ → ℚ)
    (h : st.sessions[sid]? = some s) (ha : s.is_active = true)
    (hcp : s.can_play = true) :
    ∃ st' resp roll,
      roll_slots st sid d r = .ok (st', resp) ∧
      st'.rolls = st.rolls ++ [roll] ∧
      roll.credits_before = s.credits ∧
      0 ≤ roll.credits_won ∧
      roll.credits_after = roll.credits_before - 1 + roll.credits_won ∧
      st'.sessions = st.sessions.set sid
        { s with credits := s.credits - 1 + roll.credits_won } := by
  have hl : lookupActive st sid = some s :=
    (lookupActive_eq_some_iff st sid s).mpr ⟨h, ha⟩
  obtain ⟨p, hp⟩ := roll_slots_isOk d r hl hcp
  obtain ⟨s', roll, hl', _, hw, hb, haf, hsess, hrolls⟩ :=
    roll_slots_ok_inv hp
  have hss : s' = s := by
    rw [hl] at hl'
    injection hl' with h'
    exact h'.symm
  subst hss
  exact ⟨p.1, p.2, roll, hp, hrolls, hb, hw, by rw [haf, hb], hsess⟩

/-- Witness for C2: a fresh session, an all-cherry draw stream, a draw that
never suppresses. -/
theorem roll_slots_conservation_witness :
    ∃ st' resp roll,
      roll_slots ⟨[⟨10, 0, true⟩], []⟩ 0 (fun _ => 0) (fun _ => 1) =
        .ok (st', resp) ∧
      st'.rolls = ([] : List GameRoll) ++ [roll] ∧
      roll.credits_before = (10 : ℤ) ∧
      0 ≤ roll.credits_won ∧
      roll.credits_after = roll.credits_before - 1 + roll.credits_won ∧
      st'.sessions = ([⟨10, 0, true⟩] : List GameSession).set 0
        { GameSession.mk 10 0 true with
            credits := 10 - 1 + roll.credits_won } :=
  roll_slots_conservation ⟨[⟨10, 0, true⟩], []⟩ 0 ⟨10, 0, true⟩
    (fun _ => 0) (fun _ => 1) rfl rfl rfl

/-- C6: a roll on an active session with fewer than 1 credit fails with
InsufficientCredits and leaves the store (session state and roll records)
unchanged. -/
theorem roll_slots_insufficient (st : Store) (sid : ℕ) (s : GameSession)
    (d : ℕ → ℕ) (r : ℕ → ℚ)
    (h : st.sessions[sid]? = some s) (ha : s.is_active = true)
    (hc : s.credits < 1) :
    roll_slots st sid d r = .error .insufficientCredits ∧
    applyOp st (.play sid d r) = st := by
  have hl : lookupActive st sid = some s :=
    (lookupActive_eq_some_iff st sid s).mpr ⟨h, ha⟩
  have hcp : ¬ (s.can_play = true) := by
    rw [can_play_iff]
    omega
  have herr : roll_slots st sid d r = .error .insufficientCredits := by
    simp [roll_slots, hl, hcp]
  exact ⟨herr, by simp [applyOp, herr]⟩

/-- Witness for C6: a zero-credit active session. -/
theorem roll_slots_insufficient_witness :
    roll_slots ⟨[⟨0, 0, true⟩], []⟩ 0 (fun _ => 0) (fun _ => 1) =
      .error .insufficientCredits ∧
    applyOp ⟨[⟨0, 0, true⟩], []⟩ (.play 0 (fun _ => 0) (fun _ => 1)) =
      ⟨[⟨0, 0, true⟩], []⟩ :=
  roll_slots_insufficient ⟨[⟨0, 0, true⟩], []⟩ 0 ⟨0, 0, true⟩
    (fun _ => 0) (fun _ => 1) rfl rfl (by norm_num)

/-- C9: when the initial roll wins, the fairness engine decides suppression
at the post-deduction balance (creditsBefore - 1) and the reward of the
rolled symbol, before any win is applied. -/
theorem fairness_engine_post_deduction (st : Store) (sid : ℕ)
    (s : GameSession) (d : ℕ → ℕ) (r : ℕ → ℚ)
    (h : st.sessions[sid]? = some s) (ha : s.is_active = true)
    (hcp : s.can_play = true)
    (hw : check_winning_combination (generate_roll d) = true) :
    ∃ st' resp,
      roll_slots st sid d r = .ok (st', resp) ∧
      resp.was_rerolled =
        (should_server_cheat (s.credits - 1)
          ((generate_roll d).getD 0 .cherry).reward r).1 := by
  have hl : lookupActive st sid = some s :=
    (lookupActive_eq_some_iff st sid s).mpr ⟨h, ha⟩
  rw [roll_slots_eq_of_active d r hl hcp, if_pos hw]
  by_cases hch : (should_server_cheat (s.credits - 1)
      ((generate_roll d).getD 0 .cherry).reward r).1 = true
  · rw [if_pos hch]
    exact ⟨_, _, rfl, hch.symm⟩
  · rw [if_neg hch]
    simp only [Bool.not_eq_true] at hch
    exact ⟨_, _, rfl, hch.symm⟩

/-- Witness for C9: a fresh session with an all-cherry winning draw. -/
theorem fairness_engine_post_deduction_witness :
    ∃ st' resp,
      roll_slots ⟨[⟨10, 0, true⟩], []⟩ 0 (fun _ => 0) (fun _ => 1) =
        .ok (st', resp) ∧
      resp.was_rerolled =
        (should_server_cheat ((10 : ℤ) - 1)
          ((generate_roll (fun _ => 0)).getD 0 .cherry).reward
          (fun _ => 1)).1 :=
  fairness_engine_post_deduction ⟨[⟨10, 0, true⟩], []⟩ 0 ⟨10, 0, true⟩
    (fun _ => 0) (fun _ => 1) rfl rfl rfl rfl

/-- C7: after a successful cash-out, a second cash-out on the same
identifier fails with SessionNotFoundOrInactive — the same error an unknown
identifier gets — and changes nothing in the store. -/
theorem cash_out_second_fails (st st' : Store) (sid : ℕ) (t : ℤ)
    (h : cash_out_view st sid = .ok (st', t)) :
    cash_out_view st' sid = .error .sessionNotFoundOrInactive ∧
    applyOp st' (.cashout sid) = st' ∧
    ∀ j, st.sessions[j]? = none →
      cash_out_view st j = .error .sessionNotFoundOrInactive := by
  obtain ⟨s, hl, hsess, _, _⟩ := cash_out_view_ok_inv h
  obtain ⟨hget, _⟩ := (lookupActive_eq_some_iff st sid s).mp hl
  have hlt : sid < st.sessions.length := getElem?_some_lt hget
  have hget' : st'.sessions[sid]? =
      some { credits := 0
             account_credits := s.account_credits + s.credits
             is_active := false } := by
    rw [hsess]
    exact List.getElem?_set_eq_of_lt _ hlt
  have hnone : lookupActive st' sid = none := by
    simp [lookupActive, hget']
  have herr : cash_out_view st' sid = .error .sessionNotFoundOrInactive := by
    simp [cash_out_view, hnone]
  refine ⟨herr, by simp [applyOp, herr], ?_⟩
  intro j hj
  have : lookupActive st j = none := by simp [lookupActive, hj]
  simp [cash_out_view, this]

/-- Witness for C7: cash out a fresh session twice. -/
theorem cash_out_second_fails_witness :
    cash_out_view ⟨[⟨0, 10, false⟩], []⟩ 0 =
      .error .sessionNotFoundOrInactive ∧
    applyOp ⟨[⟨0, 10, false⟩], []⟩ (.cashout 0) = ⟨[⟨0, 10, false⟩], []⟩ ∧
    ∀ j, (Store.mk [⟨10, 0, true⟩] []).sessions[j]? = none →
      cash_out_view ⟨[⟨10, 0, true⟩], []⟩ j =
        .error .sessionNotFoundOrInactive :=
  cash_out_second_fails ⟨[⟨10, 0, true⟩], []⟩ ⟨[⟨0, 10, false⟩], []⟩ 0 10 rfl

/-! ## Reachability invariants of the operation sequence -/

lemma applyOp_frozen {st : Store} {sid : ℕ} {s : GameSession} (op : Op)
    (h : st.sessions[sid]? = some s) (hs : s.is_active = false) :
    (applyOp st op).sessions[sid]? = some s := by
  cases op with
  | create =>
    have hlt : sid < st.sessions.length := getElem?_some_lt h
    simp only [applyOp, create_session_view]
    rw [List.getElem?_append, if_pos hlt]
    exact h
  | play sid' d r =>
    simp only [applyOp]
    cases hq : roll_slots st sid' d r with
    | error e => exact h
    | ok p =>
      obtain ⟨s', roll, hl', _, _, _, _, hsess, _⟩ := roll_slots_ok_inv hq
      obtain ⟨hget', hact'⟩ := (lookupActive_eq_some_iff _ _ _).mp hl'
      rw [hsess]
      by_cases he : sid' = sid
      · subst he
        rw [h] at hget'
        injection hget' with h'
        rw [← h', hs] at hact'
        cases hact'
      · rw [List.getElem?_set_ne he]
        exact h
  | cashout sid' =>
    simp only [applyOp]
    cases hq : cash_out_view st sid' with
    | error e => exact h
    | ok p =>
      obtain ⟨s', hl', hsess, _, _⟩ := cash_out_view_ok_inv hq
      obtain ⟨hget', hact'⟩ := (lookupActive_eq_some_iff _ _ _).mp hl'
      rw [hsess]
      by_cases he : sid' = sid
      · subst he
        rw [h] at hget'
        injection hget' with h'
        rw [← h', hs] at hact'
        cases hact'
      · rw [List.getElem?_set_ne he]
        exact h
  | status sid' => exact h

lemma runOps_frozen {sid : ℕ} {s : GameSession} (hs : s.is_active = false) :
    ∀ (ops : List Op) (st : Store), st.sessions[sid]? = some s →
      (runOps st ops).sessions[sid]? = some s := by
  intro ops
  induction ops with
  | nil => intro st h; exact h
  | cons op ops ih =>
    intro st h
    exact ih _ (applyOp_frozen op h hs)

lemma closedZero_empty : ClosedZero emptyStore := by
  intro sid s h _
  simp [emptyStore] at h

lemma closedZero_apply {st : Store} (op : Op) (h : ClosedZero st) :
    ClosedZero (applyOp st op) := by
  cases op with
  | create =>
    intro sid s hget hact
    simp only [applyOp, create_session_view] at hget
    by_cases hlt : sid < st.sessions.length
    · rw [List.getElem?_append, if_pos hlt] at hget
      exact h sid s hget hact
    · push_neg at hlt
      rw [List.getElem?_append, if_neg (by omega)] at hget
      have hmem := List.getElem?_mem hget
      simp at hmem
      rw [hmem] at hact
      cases hact
  | play sid' d r =>
    intro sid s hget hact
    simp only [applyOp] at hget
    cases hq : roll_slots st sid' d r with
    | error e =>
      rw [hq] at hget
      exact h sid s hget hact
    | ok p =>
      rw [hq] at hget
      obtain ⟨s', roll, hl', _, _, _, _, hsess, _⟩ := roll_slots_ok_inv hq
      obtain ⟨hget', hact'⟩ := (lookupActive_eq_some_iff _ _ _).mp hl'
      rw [hsess] at hget
      by_cases he : sid' = sid
      · subst he
        rw [List.getElem?_set_eq_of_lt _ (getElem?_some_lt hget')] at hget
        injection hget with h'
        rw [← h'] at hact
        simp at hact
        rw [hact] at hact'
        cases hact'
      · rw [List.getElem?_set_ne he] at hget
        exact h sid s hget hact
  | cashout sid' =>
    intro sid s hget hact
    simp only [applyOp] at hget
    cases hq : cash_out_view st sid' with
    | error e =>
      rw [hq] at hget
      exact h sid s hget hact
    | ok p =>
      rw [hq] at hget
      obtain ⟨s', hl', hsess, _, _⟩ := cash_out_view_ok_inv hq
      obtain ⟨hget', _⟩ := (lookupActive_eq_some_iff _ _ _).mp hl'
      rw [hsess] at hget
      by_cases he : sid' = sid
      · subst he
        rw [List.getElem?_set_eq_of_lt _ (getElem?_some_lt hget')] at hget
        injection hget with h'
        rw [← h']
      · rw [List.getElem?_set_ne he] at hget
        exact h sid s hget hact
  | status sid' =>
    intro sid s hget hact
    exact h sid s hget hact

lemma closedZero_run :
    ∀ (ops : List Op) (st : Store), ClosedZero st →
      ClosedZero (runOps st ops) := by
  intro ops
  induction ops with
  | nil => intro st h; exact h
  | cons op ops ih =>
    intro st h
    exact ih _ (closedZero_apply op h)

lemma nonNeg_empty : NonNeg emptyStore := by
  intro sid s h
  simp [emptyStore] at h

lemma nonNeg_apply {st : Store} (op : Op) (h : NonNeg st) :
    NonNeg (applyOp st op) := by
  cases op with
  | create =>
    intro sid s hget
    simp only [applyOp, create_session_view] at hget
    by_cases hlt : sid < st.sessions.length
    · rw [List.getElem?_append, if_pos hlt] at hget
      exact h sid s hget
    · push_neg at hlt
      rw [List.getElem?_append, if_neg (by omega)] at hget
      have hmem := List.getElem?_mem hget
      simp at hmem
      rw [hmem]
      exact ⟨by norm_num, le_refl 0⟩
  | play sid' d r =>
    intro sid s hget
    simp only [applyOp] at hget
    cases hq : roll_slots st sid' d r with
    | error e =>
      rw [hq] at hget
      exact h sid s hget
    | ok p =>
      rw [hq] at hget
      obtain ⟨s', roll, hl', hcp', hw, _, _, hsess, _⟩ :=
        roll_slots_ok_inv hq
      obtain ⟨hget', _⟩ := (lookupActive_eq_some_iff _ _ _).mp hl'
      rw [hsess] at hget
      by_cases he : sid' = sid
      · subst he
        rw [List.getElem?_set_eq_of_lt _ (getElem?_some_lt hget')] at hget
        injection hget with h'
        rw [← h']
        have h1 : 1 ≤ s'.credits := (can_play_iff s').mp hcp'
        have h2 := (h _ _ hget').2
        constructor
        · simp only []
          omega
        · simpa using h2
      · rw [List.getElem?_set_ne he] at hget
        exact h sid s hget
  | cashout sid' =>
    intro sid s hget
    simp only [applyOp] at hget
    cases hq : cash_out_view st sid' with
    | error e =>
      rw [hq] at hget
      exact h sid s hget
    | ok p =>
      rw [hq] at hget
      obtain ⟨s', hl', hsess, _, _⟩ := cash_out_view_ok_inv hq
      obtain ⟨hget', _⟩ := (lookupActive_eq_some_iff _ _ _).mp hl'
      rw [hsess] at hget
      by_cases he : sid' = sid
      · subst he
        rw [List.getElem?_set_eq_of_lt _ (getElem?_some_lt hget')] at hget
        injection hget with h'
        rw [← h']
        have h1 := (h _ _ hget').1
        have h2 := (h _ _ hget').2
        exact ⟨le_refl 0, by simp only []; omega⟩
      · rw [List.getElem?_set_ne he] at hget
        exact h sid s hget
  | status sid' =>
    intro sid s hget
    exact h sid s hget

lemma nonNeg_run :
    ∀ (ops : List Op) (st : Store), NonNeg st → NonNeg (runOps st ops) := by
  intro ops
  induction ops with
  | nil => intro st h; exact h
  | cons op ops ih =>
    intro st h
    exact ih _ (nonNeg_apply op h)

/-- C3: once a reachable session is inactive, it stays exactly as it is
(credits 0, inactive) across every later operation sequence, and every
later roll or cash-out on its identifier fails. -/
theorem closed_session_frozen (ops more : List Op) (sid : ℕ)
    (s : GameSession)
    (h : (runOps emptyStore ops).sessions[sid]? = some s)
    (hs : s.is_active = false) :
    s.credits = 0 ∧
    (runOps (runOps emptyStore ops) more).sessions[sid]? = some s ∧
    (∀ d r, roll_slots (runOps (runOps emptyStore ops) more) sid d r =
      .error .sessionNotFoundOrInactive) ∧
    cash_out_view (runOps (runOps emptyStore ops) more) sid =
      .error .sessionNotFoundOrInactive := by
  have hz : s.credits = 0 :=
    closedZero_run ops emptyStore closedZero_empty sid s h hs
  have hfro := runOps_frozen hs more _ h
  have hnone : lookupActive (runOps (runOps emptyStore ops) more) sid =
      none := by
    simp [lookupActive, hfro, hs]
  exact ⟨hz, hfro, fun d r => by simp [roll_slots, hnone],
    by simp [cash_out_view, hnone]⟩

/-- Witness for C3: create, cash out, then create another session; the
closed session stays frozen and rejects both operations. -/
theorem closed_session_frozen_witness :
    (GameSession.mk 0 10 false).credits = 0 ∧
    (runOps (runOps emptyStore [.create, .cashout 0])
        [.create]).sessions[0]? = some ⟨0, 10, false⟩ ∧
    roll_slots (runOps (runOps emptyStore [.create, .cashout 0]) [.create])
        0 (fun _ => 0) (fun _ => 1) = .error .sessionNotFoundOrInactive ∧
    cash_out_view (runOps (runOps emptyStore [.create, .cashout 0])
        [.create]) 0 = .error .sessionNotFoundOrInactive := by
  obtain ⟨h1, h2, h3, h4⟩ :=
    closed_session_frozen [.create, .cashout 0] [.create] 0 ⟨0, 10, false⟩
      rfl rfl
  exact ⟨h1, h2, h3 (fun _ => 0) (fun _ => 1), h4⟩

/-- C8: every session of every store reachable through the public
operations has nonnegative credits and nonnegative account credits. -/
theorem reachable_sessions_nonneg (ops : List Op) (sid : ℕ)
    (s : GameSession)
    (h : (runOps emptyStore ops).sessions[sid]? = some s) :
    0 ≤ s.credits ∧ 0 ≤ s.account_credits :=
  nonNeg_run ops emptyStore nonNeg_empty sid s h

/-- Witness for C8: the session created by a single CreateSession. -/
theorem reachable_sessions_nonneg_witness :
    0 ≤ (GameSession.mk 10 0 true).credits ∧
    0 ≤ (GameSession.mk 10 0 true).account_credits :=
  reachable_sessions_nonneg [.create] 0 ⟨10, 0, true⟩ rfl

end Game
